import Mathlib

/-!
Verification development for the blazert BVH / ray-intersection core.

The C++ sources under verification are `blazert.h` (triangle mesh,
SAH predicate, watertight triangle intersector), `scene.h` (scene facade,
`commit`, `intersect1`), `bvh/binbuffer.h` (binned SAH split search) and
`bvh/intersect.h` (slab test, leaf loop).  Floating-point arithmetic is
modelled exactly over `ℚ`; the IEEE sentinel `numeric_limits<T>::max()` is
modelled by the exact value of the largest finite f64.  Parts of the
repository that are only declared here (the traversal driver `traverse`,
`Ray`/`RayHit` defaults, the sphere class) are modelled from the spec and
marked as such.
-/

namespace Blazert

/-- 3-component vector over exact rationals (models `Vec3r<T>`). -/
abbrev Vec3 := Fin 3 → ℚ

/-- `std::numeric_limits<unsigned int>::max()`, the no-hit / no-skip sentinel. -/
def u32max : ℕ := 4294967295

/-- Exact value of `std::numeric_limits<double>::max()`. -/
@[irreducible] def Tmax : ℚ := (2 ^ 53 - 1) * 2 ^ 971

/-- `BVHTraceOptions` (fields used by the intersector; `options.h` declares
the struct, the fields are read in `blazert.h`). -/
structure BVHTraceOptions where
  cull_back_face : Bool
  skip_prim_id : ℕ
  prim_range_lo : ℕ
  prim_range_hi : ℕ

/-- A ray as consumed by `PrepareTraversal`: origin, direction and the
`[min_t, max_t]` interval. -/
structure Ray where
  org : Vec3
  dir : Vec3
  min_t : ℚ
  max_t : ℚ

/-- Build a `Vec3` from its three components. -/
def vec3 (a b c : ℚ) : Vec3 :=
  fun i => if i.val = 0 then a else if i.val = 1 then b else c

/-- Build a `Fin 3`-valued triple (used for the permuted axes `k`). -/
def tri3 (a b c : Fin 3) : Fin 3 → Fin 3 :=
  fun i => if i.val = 0 then a else if i.val = 1 then b else c

/-- Build a `ℕ`-valued triple (used for face index triples `Vec3i`). -/
def tri3n (a b c : ℕ) : Fin 3 → ℕ :=
  fun i => if i.val = 0 then a else if i.val = 1 then b else c

/-- Modelled from the spec: `argmax` of the numeric collaborator returns the
index of the first occurrence of the largest component. -/
def argmax3 (v : Vec3) : Fin 3 :=
  if v 0 < v 1 then (if v 1 < v 2 then 2 else 1) else (if v 0 < v 2 then 2 else 0)

/-- Reduce a natural index modulo 3 into `Fin 3` (the `k[i] %= 3` loop). -/
def fin3 (n : ℕ) : Fin 3 := ⟨n % 3, Nat.mod_lt n (by norm_num)⟩

/-- `RayCoeff`: the Woop shear coefficients `S` and the permuted axes `k`. -/
structure RayCoeff where
  S : Fin 3 → ℚ
  k : Fin 3 → Fin 3

/-- The coefficient computation of `TriangleIntersector::PrepareTraversal`:
`k2 = argmax |dir|`; if `dir[k2] ≥ 0` then `k0 = k2+1, k1 = k2+2` else
`k1 = k2+1, k0 = k2+2`, all mod 3; `S = (dir[k0]/dir[k2], dir[k1]/dir[k2], 1/dir[k2])`. -/
def prepareCoeff (dir : Vec3) : RayCoeff :=
  let k2 := argmax3 (fun i => |dir i|)
  let k0 : Fin 3 := if 0 ≤ dir k2 then fin3 (k2.val + 1) else fin3 (k2.val + 2)
  let k1 : Fin 3 := if 0 ≤ dir k2 then fin3 (k2.val + 2) else fin3 (k2.val + 1)
  { S := vec3 (dir k0 / dir k2) (dir k1 / dir k2) (1 / dir k2),
    k := tri3 k0 k1 k2 }

/-- The state of `TriangleIntersector` after `PrepareTraversal`: the borrowed
mesh arrays, the ray origin, the shear coefficients, the trace options and
`t_min_ = ray.min_t`. -/
structure TriangleIntersector where
  vertices : ℕ → Vec3
  faces : ℕ → Fin 3 → ℕ
  ray_org : Vec3
  coeff : RayCoeff
  trace : BVHTraceOptions
  t_min : ℚ

/-- `PrepareTraversal` packaged as a constructor. -/
def TriangleIntersector.prepare (vertices : ℕ → Vec3) (faces : ℕ → Fin 3 → ℕ)
    (ray : Ray) (topt : BVHTraceOptions) : TriangleIntersector :=
  ⟨vertices, faces, ray.org, prepareCoeff ray.dir, topt, ray.min_t⟩

/-- The edge functions `U, V, W` of `TriangleIntersector::Intersect`,
including the double-precision fallback branch (the products of exact
rationals coincide with their double-precision recomputation, so the
fallback recomputes the same three values). -/
def TriangleIntersector.edgeUVW (I : TriangleIntersector) (prim_index : ℕ) :
    ℚ × ℚ × ℚ :=
  let face := I.faces prim_index
  let p0 := I.vertices (face 0)
  let p1 := I.vertices (face 1)
  let p2 := I.vertices (face 2)
  let A : Vec3 := fun i => p0 i - I.ray_org i
  let B : Vec3 := fun i => p1 i - I.ray_org i
  let C : Vec3 := fun i => p2 i - I.ray_org i
  let k0 := I.coeff.k 0
  let k1 := I.coeff.k 1
  let k2 := I.coeff.k 2
  let Ax := A k0 - I.coeff.S 0 * A k2
  let Ay := A k1 - I.coeff.S 1 * A k2
  let Bx := B k0 - I.coeff.S 0 * B k2
  let By := B k1 - I.coeff.S 1 * B k2
  let Cx := C k0 - I.coeff.S 0 * C k2
  let Cy := C k1 - I.coeff.S 1 * C k2
  let U := Cx * By - Cy * Bx
  let V := Ax * Cy - Ay * Cx
  let W := Bx * Ay - By * Ax
  if U = 0 ∨ V = 0 ∨ W = 0 then
    (Cx * By - Cy * Bx, Ax * Cy - Ay * Cx, Bx * Ay - By * Ax)
  else
    (U, V, W)

/-- The depth terms `Az, Bz, Cz` of `TriangleIntersector::Intersect`. -/
def TriangleIntersector.depthABC (I : TriangleIntersector) (prim_index : ℕ) :
    ℚ × ℚ × ℚ :=
  let face := I.faces prim_index
  let p0 := I.vertices (face 0)
  let p1 := I.vertices (face 1)
  let p2 := I.vertices (face 2)
  let k2 := I.coeff.k 2
  (I.coeff.S 2 * (p0 k2 - I.ray_org k2),
   I.coeff.S 2 * (p1 k2 - I.ray_org k2),
   I.coeff.S 2 * (p2 k2 - I.ray_org k2))

/-- `TriangleIntersector::Intersect(t_inout, prim_index)`.  `some (t, u, v)`
models `return true` with `*t_inout = t` and `uv_ = (u, v)`; `none` models
`return false` with no mutation.  The tests appear in source order:
`prim_ids_range` window, `skip_prim_id`, edge-function sign test (with
back-face culling), zero determinant, `tt > *t_inout`, `tt < t_min_`. -/
def TriangleIntersector.Intersect (I : TriangleIntersector) (t_inout : ℚ)
    (prim_index : ℕ) : Option (ℚ × ℚ × ℚ) :=
  if prim_index < I.trace.prim_range_lo ∨ I.trace.prim_range_hi ≤ prim_index then none
  else if prim_index = I.trace.skip_prim_id then none
  else
    let UVW := I.edgeUVW prim_index
    let U := UVW.1
    let V := UVW.2.1
    let W := UVW.2.2
    if (U < 0 ∨ V < 0 ∨ W < 0) ∧
        (I.trace.cull_back_face = true ∨ (0 < U ∨ 0 < V ∨ 0 < W)) then none
    else
      let det := U + V + W
      if det = 0 then none
      else
        let ABCz := I.depthABC prim_index
        let D := U * ABCz.1 + V * ABCz.2.1 + W * ABCz.2.2
        let rcpDet := 1 / det
        let tt := D * rcpDet
        if t_inout < tt then none
        else if tt < I.t_min then none
        else some (tt, V * rcpDet, W * rcpDet)

/-- The per-primitive intersector state during one traversal: current best
distance `t_`, the recorded surface coordinates `uv_` and `prim_id_`. -/
structure TriState where
  t : ℚ
  uv : ℚ × ℚ
  prim_id : ℕ

/-- Modelled from the spec: `intersect_primitive` (declared in the primitive
headers, not under `src/`) runs the class intersector on one primitive; if it
hits, the best hit is updated to that primitive and `t_max` is tightened to
its distance (`Update`), else the state is unchanged. -/
def intersect_primitive (I : TriangleIntersector) (st : TriState) (p : ℕ) :
    Bool × TriState :=
  match I.Intersect st.t p with
  | some r => (true, ⟨r.1, (r.2.1, r.2.2), p⟩)
  | none => (false, st)

/-- `intersect_leaf` from `bvh/intersect.h`: loop over the leaf's primitives,
accumulate the hit flag, and break after the first hit when `ray.any_hit`. -/
def intersect_leaf (I : TriangleIntersector) (any_hit : Bool) :
    List ℕ → Bool → TriState → Bool × TriState
  | [], hit, st => (hit, st)
  | p :: rest, hit, st =>
    let r := intersect_primitive I st p
    let hit' := hit || r.1
    if hit' && any_hit then (hit', r.2) else intersect_leaf I any_hit rest hit' r.2

/-- The fields of `Ray<T>` read by `intersect_node`: the origin and the
derived `direction_inv` / `direction_sign` (computed in `ray.h`, outside
`src/`; here they are plain fields). -/
structure TraversalRay where
  origin : Vec3
  direction_inv : Vec3
  direction_sign : Fin 3 → Bool

/-- One axis of the slab test in `intersect_node`: the entry distance and the
padded exit distance (pad `l1 = 1 + 4·ε`; `eps` is the machine epsilon of the
instantiating float type, kept as a parameter). -/
def slabAxis (eps : ℚ) (r : TraversalRay) (nmin nmax : Vec3) (i : Fin 3) :
    ℚ × ℚ :=
  let mn := if r.direction_sign i then nmax i else nmin i
  let mx := if r.direction_sign i then nmin i else nmax i
  ((mn - r.origin i) * r.direction_inv i,
   (mx - r.origin i) * r.direction_inv i * (1 + 4 * eps))

/-- `intersect_node` from `bvh/intersect.h`.  `min_distance` / `max_distance`
are inout in the source; the returned pair models their values after the
call, and the `Bool` the return value `min_distance ≤ max_distance`. -/
def intersect_node (eps : ℚ) (min_distance max_distance : ℚ)
    (nmin nmax : Vec3) (r : TraversalRay) : Bool × ℚ × ℚ :=
  let s0 := slabAxis eps r nmin nmax 0
  let d0 : ℚ × ℚ := (max s0.1 min_distance, min s0.2 max_distance)
  let s1 := slabAxis eps r nmin nmax 1
  let d1 : ℚ × ℚ := (max s1.1 d0.1, min s1.2 d0.2)
  let s2 := slabAxis eps r nmin nmax 2
  let d2 : ℚ × ℚ := (max s2.1 d1.1, min s2.2 d1.2)
  (decide (d2.1 ≤ d2.2), d2)

/-- `TriangleSAHPred` state after `Set(axis, pos)`. -/
structure TriangleSAHPred where
  axis : Fin 3
  pos : ℚ
  vertices : ℕ → Vec3
  faces : ℕ → Fin 3 → ℕ

/-- `TriangleSAHPred::Set`. -/
def TriangleSAHPred.Set (P : TriangleSAHPred) (axis : Fin 3) (pos : ℚ) :
    TriangleSAHPred :=
  { P with axis := axis, pos := pos }

/-- `TriangleSAHPred::operator()` exactly as written in `blazert.h`: all
three vertices are fetched with `face[0]`, and the sum is compared against
`pos * 3`. -/
def TriangleSAHPred.eval (P : TriangleSAHPred) (prim_id : ℕ) : Bool :=
  let face := P.faces prim_id
  let p0 := P.vertices (face 0)
  let p1 := P.vertices (face 0)
  let p2 := P.vertices (face 0)
  let center := p0 P.axis + p1 P.axis + p2 P.axis
  decide (center < P.pos * 3)

/-- The predicate the spec describes (for comparison with
`TriangleSAHPred.eval`): the arithmetic-mean centroid of the triangle's three
vertices along `axis` is strictly below `pos`. -/
def centroidPred (vertices : ℕ → Vec3) (faces : ℕ → Fin 3 → ℕ)
    (axis : Fin 3) (pos : ℚ) (prim_id : ℕ) : Bool :=
  let face := faces prim_id
  let c := (vertices (face 0) axis + vertices (face 1) axis
      + vertices (face 2) axis) / 3
  decide (c < pos)

/-- `calculate_box_surface` from `bvh/binbuffer.h`. -/
def calculate_box_surface (bmin bmax : Vec3) : ℚ :=
  let box : Vec3 := fun i => |bmax i - bmin i|
  2 * (box 0 * box 1 + box 1 * box 2 + box 2 * box 0)

/-- The float value `count * calculate_box_surface(bmin, bmax)` computed by
the sweeps.  A surface whose exact value exceeds `max_T` has overflowed to
`+∞` in the program — in particular the surface of the untouched
`±max_T` sentinel box of an empty accumulation — and then `0 · ∞ = NaN`
and `n · ∞ = +∞`.  Both NaN and `+∞` compare false (`<`) against every
finite running minimum and poison every later sum, so they are modelled
uniformly by `none` (an unselectable cost); a product beyond `max_T`
likewise overflows.  Finite results are exact. -/
def saCost (count : ℕ) (bmin bmax : Vec3) : Option ℚ :=
  let s := calculate_box_surface bmin bmax
  if Tmax < s then none
  else if Tmax < (count : ℚ) * s then none
  else some ((count : ℚ) * s)

/-- Float addition of two cost values: `none` (NaN or `+∞`) absorbs, and a
finite sum beyond `max_T` overflows to `+∞` (`none`). -/
def addCost : Option ℚ → Option ℚ → Option ℚ
  | some a, some b => if Tmax < a + b then none else some (a + b)
  | _, _ => none

/-- `Bin` from `bvh/binbuffer.h`.  The `cost` field holds a float: either a
finite value (exact) or `none` for the NaN / `+∞` results described at
`saCost`. -/
structure Bin where
  min : Vec3
  max : Vec3
  count : ℕ
  cost : Option ℚ

/-- The `Bin()` default constructor: `min = +max_T`, `max = -max_T`,
`count = 0`, `cost = 0`. -/
def defaultBin : Bin := ⟨fun _ => Tmax, fun _ => -Tmax, 0, some 0⟩

instance : Inhabited Bin := ⟨defaultBin⟩

/-- `std::vector::clear()`: erases all elements. -/
def vecClear (_v : List Bin) : List Bin := []

/-- `std::vector::resize(n)`: appends default-constructed elements when
growing, erases the tail when shrinking. -/
def vecResize (n : ℕ) (v : List Bin) : List Bin :=
  if v.length ≤ n then v ++ List.replicate (n - v.length) defaultBin else v.take n

/-- `BinBuffer` from `bvh/binbuffer.h`. -/
structure BinBuffer where
  bin : List Bin
  size : ℕ

/-- The `BinBuffer(size)` constructor: `bin.resize(3 * size)` on an empty
vector. -/
def BinBuffer.init (size : ℕ) : BinBuffer := ⟨vecResize (3 * size) [], size⟩

/-- `BinBuffer::clear()`: `bin.clear(); bin.resize(3 * size);`. -/
def BinBuffer.clear (b : BinBuffer) : BinBuffer :=
  ⟨vecResize (3 * b.size) (vecClear b.bin), b.size⟩

/-- The abstract primitive collection as used by
`sort_collection_into_bins`: per-primitive bounding box and center
(`get_primitive_bounding_box` / `get_primitive_center`). -/
structure SplitCollection where
  bbox : ℕ → Vec3 × Vec3
  center : ℕ → Vec3

/-- Pointwise update of the flat bin array. -/
def updAt (bins : ℕ → Bin) (n : ℕ) (b : Bin) : ℕ → Bin :=
  fun m => if m = n then b else bins m

/-- `sort_collection_into_bins`: bin each primitive's AABB by the truncated
normalized centroid along every non-degenerate axis.  The flat bin vector is
modelled as a total map from the flat index `j * size + idx`; the
float-to-unsigned cast truncates (non-negative by the source's
`assert center > min`; a negative argument clamps to 0 like the subsequent
`max(0u, ·)`). -/
def sort_collection_into_bins (c : SplitCollection) (prims : List ℕ)
    (bmin bmax : Vec3) (bin_size : ℕ) : ℕ → Bin :=
  let inv_size : Vec3 :=
    fun i => if 0 < bmax i - bmin i then 1 / (bmax i - bmin i) else 0
  prims.foldl (fun bins p =>
    let bb := c.bbox p
    let center := c.center p
    let ncenter : Fin 3 → ℕ :=
      fun i => (⌊(center i - bmin i) * inv_size i * ((bin_size - 1 : ℕ) : ℚ)⌋).toNat
    ([0, 1, 2] : List (Fin 3)).foldl (fun bins j =>
      if 0 < inv_size j then
        let idx := Nat.min (bin_size - 1) (ncenter j)
        let fi := j.val * bin_size + idx
        let b := bins fi
        updAt bins fi
          ⟨fun k => min (b.min k) (bb.1 k), fun k => max (b.max k) (bb.2 k),
           b.count + 1, b.cost⟩
      else bins) bins)
    (fun _ => defaultBin)

/-- Accumulator of the right-to-left cost sweep in `find_best_split_binned`. -/
structure RightSweepState where
  bins : ℕ → Bin
  count : ℕ
  bmin : Vec3
  bmax : Vec3

/-- The first (right-to-left) sweep of `find_best_split_binned` for axis `j`:
for `i = size-1` down to `1`, accumulate count and box of bins `i..size-1`
and store `bin.cost = count * surface_area` (the right-of-split cost).  An
all-empty suffix leaves the `±max_T` sentinel accumulators, whose surface
has overflowed to `+∞`, so the stored float is `0 · ∞ = NaN` (`none`). -/
def sweepRight (size : ℕ) (j : ℕ) (bins : ℕ → Bin) : ℕ → Bin :=
  (((List.range (size - 1)).reverse.map (· + 1)).foldl
    (fun st i =>
      let b := st.bins (j * size + i)
      let bmin' : Vec3 := fun k => min (b.min k) (st.bmin k)
      let bmax' : Vec3 := fun k => max (b.max k) (st.bmax k)
      let count' := st.count + b.count
      RightSweepState.mk
        (updAt st.bins (j * size + i)
          ⟨b.min, b.max, b.count, saCost count' bmin' bmax'⟩)
        count' bmin' bmax')
    (RightSweepState.mk bins 0 (fun _ => Tmax) (fun _ => -Tmax))).bins

/-- Accumulator of the left-to-right min-cost sweep. -/
structure MinSweepState where
  count : ℕ
  bmin : Vec3
  bmax : Vec3
  minBin : ℕ
  min_cost : ℚ

/-- One iteration of the second (left-to-right) sweep: accumulate the left
count and box, form `cost = count * surface_area + next_bin.cost` and keep
the strictly smaller cost, recording `minBin = i + 1`.  A NaN or `+∞`
candidate (`none`: empty prefix, empty suffix, or overflow) makes the
comparison `cost < min_cost` false, so such candidates are never kept —
exactly the float behaviour. -/
def sweepLeftStep (size j : ℕ) (bins : ℕ → Bin) (st : MinSweepState) (i : ℕ) :
    MinSweepState :=
  let b := bins (j * size + i)
  let nb := bins (j * size + i + 1)
  let bmin' : Vec3 := fun k => min (b.min k) (st.bmin k)
  let bmax' : Vec3 := fun k => max (b.max k) (st.bmax k)
  let count' := st.count + b.count
  match addCost (saCost count' bmin' bmax') nb.cost with
  | some cost =>
    if cost < st.min_cost then MinSweepState.mk count' bmin' bmax' (i + 1) cost
    else MinSweepState.mk count' bmin' bmax' st.minBin st.min_cost
  | none => MinSweepState.mk count' bmin' bmax' st.minBin st.min_cost

/-- The second (left-to-right) sweep of `find_best_split_binned` for axis
`j`, for `i = 0` to `size-2`.  `minBin` starts at 1 and `min_cost` at
`numeric_limits<T>::max()`. -/
def sweepLeft (size : ℕ) (j : ℕ) (bins : ℕ → Bin) : MinSweepState :=
  (List.range (size - 1)).foldl (sweepLeftStep size j bins)
    (MinSweepState.mk 0 (fun _ => Tmax) (fun _ => -Tmax) 1 Tmax)

/-- The bins of axis `j` after binning and the right-to-left cost sweep. -/
def rightSweptBins (c : SplitCollection) (prims : List ℕ)
    (bmin bmax : Vec3) (bin_size : ℕ) (j : ℕ) : ℕ → Bin :=
  sweepRight bin_size j (sort_collection_into_bins c prims bmin bmax bin_size)

/-- `find_best_split_binned` from `bvh/binbuffer.h`: per-axis sweeps, then
`cut_pos[j] = minBin * ((max[j] - min[j]) / bin_size) + min[j]` and the axis
with minimal cost (strict `>` chain, so ties keep the lower index). -/
def find_best_split_binned (c : SplitCollection) (prims : List ℕ)
    (bmin bmax : Vec3) (bin_size : ℕ) : ℕ × Vec3 :=
  let res : ℕ → MinSweepState :=
    fun j => sweepLeft bin_size j (rightSweptBins c prims bmin bmax bin_size j)
  let cut_pos : Vec3 :=
    fun j => ((res j.val).minBin : ℚ) * ((bmax j - bmin j) / (bin_size : ℚ)) + bmin j
  let mc : ℕ → ℚ := fun j => (res j).min_cost
  let a0 : ℕ := if mc 1 < mc 0 then 1 else 0
  let ax : ℕ := if mc 2 < mc a0 then 2 else a0
  (ax, cut_pos)

/-- Count of the primitives in bins `[0, s)` of axis `j` (the left side of
split position `s`). -/
def prefCount (size j : ℕ) (bins : ℕ → Bin) : ℕ → ℕ
  | 0 => 0
  | s + 1 => prefCount size j bins s + (bins (j * size + s)).count

/-- Componentwise lower corner of the union of bins `[0, s)` of axis `j`
(starting from the `+max_T` sentinel). -/
def prefMin (size j : ℕ) (bins : ℕ → Bin) : ℕ → Vec3
  | 0 => fun _ => Tmax
  | s + 1 => fun k => min ((bins (j * size + s)).min k) (prefMin size j bins s k)

/-- Componentwise upper corner of the union of bins `[0, s)` of axis `j`. -/
def prefMax (size j : ℕ) (bins : ℕ → Bin) : ℕ → Vec3
  | 0 => fun _ => -Tmax
  | s + 1 => fun k => max ((bins (j * size + s)).max k) (prefMax size j bins s k)

/-- The SAH cost of split position `s` on axis `j`, over the bins after the
right-to-left sweep: left count times left surface area plus the precomputed
right-of-split cost stored in bin `s` — a float value, `none` when NaN or
`+∞` (empty left prefix, empty right suffix, or overflow). -/
def splitCost (size j : ℕ) (bins : ℕ → Bin) (s : ℕ) : Option ℚ :=
  addCost
    (saCost (prefCount size j bins s) (prefMin size j bins s) (prefMax size j bins s))
    ((bins (j * size + s)).cost)

/-- Running strict minimum of `f` over candidates `1..m` with its first
attaining index, starting from `(1, max_T)` like the source's sweep; a
`none` candidate (NaN / `+∞`) compares false and is skipped. -/
def runMinAux (f : ℕ → Option ℚ) : ℕ → ℕ × ℚ
  | 0 => (1, Tmax)
  | m + 1 =>
    let r := runMinAux f m
    match f (m + 1) with
    | some c => if c < r.2 then (m + 1, c) else r
    | none => r

/-- `RayHit` as used by `intersect1` (declared in `ray.h`, outside `src/`):
hit distance, primitive id and geometry id.  Modelled from the spec. -/
structure RayHit where
  hit_distance : ℚ
  prim_id : ℕ
  geom_id : ℕ

/-- Modelled from the spec: a default-constructed `RayHit` carries the
`+∞` best-hit sentinel (`max_T`) and the `U32_MAX` no-hit markers. -/
def defaultRayHit : RayHit := ⟨Tmax, u32max, u32max⟩

/-- Modelled from the spec: one registered primitive class as seen by the
scene query: its geometry id tag, primitive count, and each primitive's
closest intersection parameter within `[min_t, max_t]` (`none` on a miss). -/
structure ClassModel where
  tag : ℕ
  n : ℕ
  primT : ℕ → Option ℚ

/-- Modelled from the spec: the closest hit of one class — the minimal
intersection parameter over the class's primitives, together with the
primitive attaining it. -/
def classBest (m : ClassModel) : Option (ℚ × ℕ) :=
  (List.range m.n).foldl
    (fun best i =>
      match m.primT i, best with
      | some t, some tb => if t < tb.1 then some (t, i) else some tb
      | some t, none => some (t, i)
      | none, b => b)
    none

/-- Modelled from the spec: `traverse` (in `bvh/accel.h`, outside `src/`)
returns whether the class was hit and fills the `RayHit` only on a hit
(`PostTraversal` writes `isect` only `if (hit)`). -/
def traverse (m : ClassModel) (temp : RayHit) : Bool × RayHit :=
  match classBest m with
  | some ti => (true, ⟨ti.1, ti.2, m.tag⟩)
  | none => (false, temp)

/-- The scene as read by `intersect1`: which classes are registered and the
two class models. -/
structure SceneModel where
  has_triangles : Bool
  has_spheres : Bool
  triangles : ClassModel
  spheres : ClassModel

/-- `intersect1` from `scene.h`: traverse triangles, copying the temp hit
unconditionally on a triangle hit; then traverse spheres, copying only when
the sphere distance is strictly below the current `rayhit.hit_distance`. -/
def intersect1 (scene : SceneModel) (rayhit : RayHit) : Bool × RayHit :=
  let temp := defaultRayHit
  let hit := false
  let s1 :=
    if scene.has_triangles then
      let r := traverse scene.triangles temp
      if r.1 then (hit || r.1, r.2, r.2) else (hit, rayhit, r.2)
    else (hit, rayhit, temp)
  let s2 :=
    if scene.has_spheres then
      let r := traverse scene.spheres s1.2.2
      if r.1 then
        if r.2.hit_distance < s1.2.1.hit_distance then (s1.1 || r.1, r.2, r.2)
        else (s1.1, s1.2.1, r.2)
      else (s1.1, s1.2.1, r.2)
    else s1
  (s2.1, s2.2.1)

/-- Some ray–scene distance `t` is an intersection of a registered primitive
within `[min_t, max_t]` (the set `intersect1` is specified to minimise over). -/
def sceneHits (scene : SceneModel) (t : ℚ) : Prop :=
  (scene.has_triangles = true ∧ ∃ i < scene.triangles.n, scene.triangles.primT i = some t)
  ∨ (scene.has_spheres = true ∧ ∃ i < scene.spheres.n, scene.spheres.primT i = some t)

/-- `BVHBuildOptions` fields relevant to validation. -/
structure BuildOptions where
  bin_size : ℕ
  min_leaf_primitives : ℕ
  max_tree_depth : ℕ

/-- `BlazertScene` state as read and written by `commit` (`scene.h`).
`builds` counts invocations of `BVH::build` (the builder itself lives
outside `src/`), so that re-building on a second `commit` is observable. -/
structure BlazertScene where
  build_options : BuildOptions
  has_been_committed : Bool
  geometries : ℕ
  has_triangles : Bool
  has_spheres : Bool
  builds : ℕ

/-- `BlazertScene::commit` from `scene.h`: build each registered BVH, set
`has_been_committed = true` and return it.  There is no validation of the
options, no emptiness check and no guard against a repeated call. -/
def BlazertScene.commit (s : BlazertScene) : Bool × BlazertScene :=
  let s1 := if s.has_triangles then { s with builds := s.builds + 1 } else s
  let s2 := if s1.has_spheres then { s1 with builds := s1.builds + 1 } else s1
  (true, { s2 with has_been_committed := true })

/-! Concrete data for the end-to-end scenarios and counterexamples. -/

/-- Default trace options (modelled from the spec: no culling, no skip, full
primitive window). -/
def defTrace : BVHTraceOptions := ⟨false, u32max, 0, u32max⟩

/-- Trace options with back-face culling enabled. -/
def cullTrace : BVHTraceOptions := ⟨true, u32max, 0, u32max⟩

/-- Trace options skipping primitive 0. -/
def skipTrace : BVHTraceOptions := ⟨false, 0, 0, u32max⟩

/-- The S1 triangle `p0=(0,0,1), p1=(1,0,1), p2=(0,1,1)`. -/
def s1verts : ℕ → Vec3 :=
  fun i => if i = 0 then vec3 0 0 1 else if i = 1 then vec3 1 0 1 else vec3 0 1 1

/-- Every face is `(0, 1, 2)`. -/
def s1faces : ℕ → Fin 3 → ℕ := fun _ => tri3n 0 1 2

/-- The S1 ray: origin `(0.25, 0.25, 0)`, direction `(0, 0, 1)`,
`[min_t, max_t] = [0, 10]`. -/
def s1ray : Ray := ⟨vec3 (1/4) (1/4) 0, vec3 0 0 1, 0, 10⟩

/-- The S1 intersector with default trace options. -/
def s1I : TriangleIntersector := TriangleIntersector.prepare s1verts s1faces s1ray defTrace

/-- The S1 intersector with back-face culling. -/
def s1Icull : TriangleIntersector :=
  TriangleIntersector.prepare s1verts s1faces s1ray cullTrace

/-- The S1 intersector skipping primitive 0. -/
def s1Iskip : TriangleIntersector :=
  TriangleIntersector.prepare s1verts s1faces s1ray skipTrace

/-- Initial leaf-loop state: best distance `max_t = 10`, no primitive. -/
def c4st : TriState := ⟨10, (0, 0), u32max⟩

/-- Vertices exercising the SAH-predicate bug: `v0 = (0,0,0)`,
`v1 = (6,0,0)`, `v2 = (0,0,0)`; the triangle's centroid is `(2, 0, 0)`. -/
def sahVerts : ℕ → Vec3 :=
  fun i => if i = 0 then vec3 0 0 0 else if i = 1 then vec3 6 0 0 else vec3 0 0 0

/-- The SAH predicate after `Set(0, 1)` over that mesh. -/
def sahP : TriangleSAHPred := ⟨0, 1, sahVerts, s1faces⟩

/-- A scene with no registered geometry and an invalid `bin_size = 0`. -/
def emptyScene : BlazertScene := ⟨⟨0, 4, 32⟩, false, 0, false, false, 0⟩

/-- A one-triangle class hitting at `t = 1`. -/
def demoTri : ClassModel := ⟨0, 1, fun i => if i = 0 then some 1 else none⟩

/-- A one-sphere class hitting at `t = 2`. -/
def demoSph : ClassModel := ⟨1, 1, fun i => if i = 0 then some 2 else none⟩

/-- A scene with one triangle (t = 1) and one sphere (t = 2). -/
def demoScene : SceneModel := ⟨true, true, demoTri, demoSph⟩

/-- A one-sphere class hitting at exactly `t = 1`, tying the triangle. -/
def tieSph : ClassModel := ⟨1, 1, fun i => if i = 0 then some 1 else none⟩

/-- A scene where the triangle hit and the sphere hit have equal distance. -/
def tieScene : SceneModel := ⟨true, true, demoTri, tieSph⟩

/-- Two point primitives at `(0,0,0)` and `(1,1,1)`. -/
def wCol : SplitCollection :=
  ⟨fun p => if p = 0 then (vec3 0 0 0, vec3 0 0 0) else (vec3 1 1 1, vec3 1 1 1),
   fun p => if p = 0 then vec3 0 0 0 else vec3 1 1 1⟩

/-- The enclosing box `[0,1]³` of `wCol`. -/
def wMin : Vec3 := vec3 0 0 0

/-- Upper corner of the enclosing box of `wCol`. -/
def wMax : Vec3 := vec3 1 1 1

/-- A bin with stale contents (count 5, cost 7, collapsed box). -/
def dirtyBin : Bin := ⟨fun _ => 0, fun _ => 0, 5, some 7⟩

/-- A `BinBuffer` of size 1 whose first entry holds stale contents. -/
def bufC8 : BinBuffer := ⟨[dirtyBin, defaultBin, defaultBin], 1⟩

/-! Helper lemmas about the triangle intersector. -/

theorem Intersect_window_reject (I : TriangleIntersector) (t : ℚ) (p : ℕ)
    (h : p < I.trace.prim_range_lo ∨ I.trace.prim_range_hi ≤ p ∨ p = I.trace.skip_prim_id) :
    I.Intersect t p = none := by
  simp only [TriangleIntersector.Intersect]
  split_ifs with h1 h2 <;> first | rfl | (exfalso; rcases h with h | h | h <;> simp_all)

theorem Intersect_inWindow (I : TriangleIntersector) (t : ℚ) (p : ℕ) (r : ℚ × ℚ × ℚ)
    (h : I.Intersect t p = some r) :
    I.trace.prim_range_lo ≤ p ∧ p < I.trace.prim_range_hi ∧ p ≠ I.trace.skip_prim_id := by
  by_contra hc
  rw [Intersect_window_reject I t p (by omega)] at h
  exact Option.noConfusion h

theorem Intersect_sign_reject (I : TriangleIntersector) (t : ℚ) (p : ℕ)
    (U V W : ℚ) (hUVW : I.edgeUVW p = (U, V, W))
    (hneg : U < 0 ∨ V < 0 ∨ W < 0) (r : ℚ × ℚ × ℚ)
    (h : I.Intersect t p = some r) :
    I.trace.cull_back_face = false ∧ U ≤ 0 ∧ V ≤ 0 ∧ W ≤ 0 := by
  simp only [TriangleIntersector.Intersect, hUVW] at h
  split_ifs at h with h1 h2 h3 h4 h5 h6 <;> try exact Option.noConfusion h
  constructor
  · rcases Bool.eq_false_or_eq_true I.trace.cull_back_face with hc | hc
    · exact absurd ⟨hneg, Or.inl hc⟩ h3
    · exact hc
  refine ⟨?_, ?_, ?_⟩ <;> by_contra hpos <;> push_neg at hpos <;>
    exact h3 ⟨hneg, Or.inr (by tauto)⟩

theorem Intersect_mixed_reject (I : TriangleIntersector) (t : ℚ) (p : ℕ)
    (U V W : ℚ) (hUVW : I.edgeUVW p = (U, V, W))
    (hneg : U < 0 ∨ V < 0 ∨ W < 0) (hpos : 0 < U ∨ 0 < V ∨ 0 < W) :
    I.Intersect t p = none := by
  simp only [TriangleIntersector.Intersect, hUVW]
  split_ifs with h1 h2 h3 <;> first | rfl | exact absurd ⟨hneg, Or.inr hpos⟩ h3

theorem Intersect_uv (I : TriangleIntersector) (t : ℚ) (p : ℕ) (r : ℚ × ℚ × ℚ)
    (h : I.Intersect t p = some r) :
    r.2.1 = (I.edgeUVW p).2.1
        / ((I.edgeUVW p).1 + (I.edgeUVW p).2.1 + (I.edgeUVW p).2.2)
      ∧ r.2.2 = (I.edgeUVW p).2.2
        / ((I.edgeUVW p).1 + (I.edgeUVW p).2.1 + (I.edgeUVW p).2.2) := by
  simp only [TriangleIntersector.Intersect] at h
  split_ifs at h with h1 h2 h3 h4 h5 h6 <;> try exact Option.noConfusion h
  obtain ⟨rfl⟩ : r = _ := (Option.some_inj.mp h).symm
  constructor <;> simp [div_eq_mul_inv]

theorem leaf_window_aux (I : TriangleIntersector) (anyh : Bool) (prims : List ℕ) :
    ∀ (hit : Bool) (st : TriState),
    (intersect_leaf I anyh prims hit st).2.prim_id = st.prim_id
    ∨ (I.trace.prim_range_lo ≤ (intersect_leaf I anyh prims hit st).2.prim_id
        ∧ (intersect_leaf I anyh prims hit st).2.prim_id < I.trace.prim_range_hi
        ∧ (intersect_leaf I anyh prims hit st).2.prim_id ≠ I.trace.skip_prim_id) := by
  induction prims with
  | nil => intro hit st; exact Or.inl rfl
  | cons p rest ih =>
    intro hit st
    cases hI : I.Intersect st.t p with
    | none =>
      simp only [intersect_leaf, intersect_primitive, hI]
      split
      · exact Or.inl rfl
      · exact ih _ _
    | some val =>
      obtain ⟨hlo, hhi, hskip⟩ := Intersect_inWindow I st.t p val hI
      simp only [intersect_leaf, intersect_primitive, hI]
      split
      · exact Or.inr ⟨hlo, hhi, hskip⟩
      · rcases ih (hit || true) ⟨val.1, (val.2.1, val.2.2), p⟩ with h | h
        · rw [h]; exact Or.inr ⟨hlo, hhi, hskip⟩
        · exact Or.inr h

/-! Concrete evaluations of the S1 geometry. -/

theorem s1I_hit : s1I.Intersect 10 0 = some (1, 1/4, 1/4) := by
  norm_num [TriangleIntersector.Intersect, TriangleIntersector.edgeUVW,
    TriangleIntersector.depthABC, TriangleIntersector.prepare, prepareCoeff,
    argmax3, fin3, vec3, tri3, tri3n, s1I, s1verts, s1faces, s1ray, defTrace, u32max]

theorem s1I_hit_second : s1I.Intersect 1 1 = some (1, 1/4, 1/4) := by
  norm_num [TriangleIntersector.Intersect, TriangleIntersector.edgeUVW,
    TriangleIntersector.depthABC, TriangleIntersector.prepare, prepareCoeff,
    argmax3, fin3, vec3, tri3, tri3n, s1I, s1verts, s1faces, s1ray, defTrace, u32max]

theorem s1I_edge : s1I.edgeUVW 0 = (-(1/2), -(1/4), -(1/4)) := by
  norm_num [TriangleIntersector.edgeUVW, TriangleIntersector.prepare, prepareCoeff,
    argmax3, fin3, vec3, tri3, tri3n, s1I, s1verts, s1faces, s1ray, defTrace]

theorem s1Icull_miss : s1Icull.Intersect 10 0 = none := by
  norm_num [TriangleIntersector.Intersect, TriangleIntersector.edgeUVW,
    TriangleIntersector.depthABC, TriangleIntersector.prepare, prepareCoeff,
    argmax3, fin3, vec3, tri3, tri3n, s1Icull, s1verts, s1faces, s1ray, cullTrace, u32max]

theorem c4_leaf_eval :
    intersect_leaf s1I false [0, 1] false c4st = (true, ⟨1, (1/4, 1/4), 1⟩) := by
  norm_num [intersect_leaf, intersect_primitive, c4st,
    TriangleIntersector.Intersect, TriangleIntersector.edgeUVW,
    TriangleIntersector.depthABC, TriangleIntersector.prepare, prepareCoeff,
    argmax3, fin3, vec3, tri3, tri3n, s1I, s1verts, s1faces, s1ray, defTrace, u32max]

/-- C5: if any edge function is negative, the candidate hit is rejected
unless culling is off and all three are ≤ 0 (back-face hit accepted);
mixed signs always reject; concretely, the S1 ray hits the S1 triangle's
back face (all edge functions negative), so it misses with
`cull_back_face = true` and hits at `t = 1` with `cull_back_face = false`. -/
theorem blazert_C5 :
    (∀ (I : TriangleIntersector) (t : ℚ) (p : ℕ) (U V W : ℚ) (r : ℚ × ℚ × ℚ),
        I.edgeUVW p = (U, V, W) → (U < 0 ∨ V < 0 ∨ W < 0) →
        I.Intersect t p = some r →
        I.trace.cull_back_face = false ∧ U ≤ 0 ∧ V ≤ 0 ∧ W ≤ 0)
    ∧ (∀ (I : TriangleIntersector) (t : ℚ) (p : ℕ) (U V W : ℚ),
        I.edgeUVW p = (U, V, W) → (U < 0 ∨ V < 0 ∨ W < 0) →
        (0 < U ∨ 0 < V ∨ 0 < W) →
        I.Intersect t p = none)
    ∧ s1Icull.Intersect 10 0 = none
    ∧ s1I.Intersect 10 0 = some (1, 1/4, 1/4) :=
  ⟨fun I t p U V W r hUVW hneg h => Intersect_sign_reject I t p U V W hUVW hneg r h,
   fun I t p U V W hUVW hneg hpos => Intersect_mixed_reject I t p U V W hUVW hneg hpos,
   s1Icull_miss, s1I_hit⟩

/-- Witness for C5: the general rejection clause applied to the S1 ray and
triangle (edge functions `(-1/2, -1/4, -1/4)`), whose hit with default
options certifies that culling was off and all edge functions are ≤ 0. -/
theorem blazert_C5_witness :
    s1I.trace.cull_back_face = false
      ∧ -(1/2 : ℚ) ≤ 0 ∧ -(1/4 : ℚ) ≤ 0 ∧ -(1/4 : ℚ) ≤ 0 :=
  blazert_C5.1 s1I 10 0 (-(1/2)) (-(1/4)) (-(1/4)) (1, 1/4, 1/4)
    s1I_edge (by norm_num) s1I_hit

/-- C6: the triangle intersector reports a miss, before any intersection
math, for any primitive outside the half-open `prim_ids_range` window or
equal to `skip_prim_id`; consequently the leaf loop never reports such a
primitive: its final `prim_id` is either untouched or in-window and
non-skipped. -/
theorem blazert_C6 :
    (∀ (I : TriangleIntersector) (t : ℚ) (p : ℕ),
        (p < I.trace.prim_range_lo ∨ I.trace.prim_range_hi ≤ p
          ∨ p = I.trace.skip_prim_id) →
        I.Intersect t p = none)
    ∧ (∀ (I : TriangleIntersector) (anyh : Bool) (prims : List ℕ)
        (hit : Bool) (st : TriState),
        (intersect_leaf I anyh prims hit st).2.prim_id = st.prim_id
        ∨ (I.trace.prim_range_lo ≤ (intersect_leaf I anyh prims hit st).2.prim_id
            ∧ (intersect_leaf I anyh prims hit st).2.prim_id < I.trace.prim_range_hi
            ∧ (intersect_leaf I anyh prims hit st).2.prim_id ≠ I.trace.skip_prim_id)) :=
  ⟨Intersect_window_reject, fun I anyh prims hit st => leaf_window_aux I anyh prims hit st⟩

/-- Witness for C6: with `skip_prim_id = 0` the S1 intersector rejects
primitive 0 outright. -/
theorem blazert_C6_witness : s1Iskip.Intersect 10 0 = none :=
  blazert_C6.1 s1Iskip 10 0 (Or.inr (Or.inr rfl))

/-- C9: on every reported hit the surface coordinates are
`uv = (V/det, W/det)` with `det = U + V + W`; concretely the S1 scenario
reports `t = 1` and `uv = (0.25, 0.25)`. -/
theorem blazert_C9 :
    (∀ (I : TriangleIntersector) (t : ℚ) (p : ℕ) (r : ℚ × ℚ × ℚ),
        I.Intersect t p = some r →
        r.2.1 = (I.edgeUVW p).2.1
            / ((I.edgeUVW p).1 + (I.edgeUVW p).2.1 + (I.edgeUVW p).2.2)
          ∧ r.2.2 = (I.edgeUVW p).2.2
            / ((I.edgeUVW p).1 + (I.edgeUVW p).2.1 + (I.edgeUVW p).2.2))
    ∧ s1I.Intersect 10 0 = some (1, 1/4, 1/4) :=
  ⟨Intersect_uv, s1I_hit⟩

/-- Witness for C9: the barycentric clause applied to the S1 hit. -/
theorem blazert_C9_witness :
    ((1 : ℚ), (1/4 : ℚ), (1/4 : ℚ)).2.1 = (s1I.edgeUVW 0).2.1
        / ((s1I.edgeUVW 0).1 + (s1I.edgeUVW 0).2.1 + (s1I.edgeUVW 0).2.2)
      ∧ ((1 : ℚ), (1/4 : ℚ), (1/4 : ℚ)).2.2 = (s1I.edgeUVW 0).2.2
        / ((s1I.edgeUVW 0).1 + (s1I.edgeUVW 0).2.1 + (s1I.edgeUVW 0).2.2) :=
  blazert_C9.1 s1I 10 0 (1, 1/4, 1/4) s1I_hit

/-- C10: `intersect_node` always writes back through its inout distance
parameters, also on a miss: the final `min_distance` is the maximum of its
old value and the three per-axis entry distances, the final `max_distance`
the minimum of its old value and the three padded per-axis exit distances,
and the return value is `min_distance ≤ max_distance` on those final
values.  A caller must therefore pass fresh copies per node. -/
theorem blazert_C10 (eps minD maxD : ℚ) (nmin nmax : Vec3) (r : TraversalRay) :
    (intersect_node eps minD maxD nmin nmax r).2.1
        = max minD (max (slabAxis eps r nmin nmax 0).1
            (max (slabAxis eps r nmin nmax 1).1 (slabAxis eps r nmin nmax 2).1))
    ∧ (intersect_node eps minD maxD nmin nmax r).2.2
        = min maxD (min (slabAxis eps r nmin nmax 0).2
            (min (slabAxis eps r nmin nmax 1).2 (slabAxis eps r nmin nmax 2).2))
    ∧ ((intersect_node eps minD maxD nmin nmax r).1 = true
        ↔ (intersect_node eps minD maxD nmin nmax r).2.1
            ≤ (intersect_node eps minD maxD nmin nmax r).2.2) := by
  refine ⟨?_, ?_, ?_⟩
  · simp only [intersect_node]
    generalize (slabAxis eps r nmin nmax 0).1 = a
    generalize (slabAxis eps r nmin nmax 1).1 = b
    generalize (slabAxis eps r nmin nmax 2).1 = c
    simp [max_comm, max_assoc, max_left_comm]
  · simp only [intersect_node]
    generalize (slabAxis eps r nmin nmax 0).2 = a
    generalize (slabAxis eps r nmin nmax 1).2 = b
    generalize (slabAxis eps r nmin nmax 2).2 = c
    simp [min_comm, min_assoc, min_left_comm]
  · simp only [intersect_node, decide_eq_true_iff]

/-- C2: the source's SAH predicate fetches all three vertices with
`face[0]` and compares their sum against `pos * 3`, so it tests
`v0[axis] < pos` instead of the documented centroid test.  For the
triangle `(0,0,0), (6,0,0), (0,0,0)` with `Set(0, 1)` the predicate
returns `true` although the centroid coordinate 2 is not below 1. -/
theorem blazert_C2 :
    TriangleSAHPred.eval sahP 0 = true
      ∧ centroidPred sahVerts s1faces 0 1 0 = false := by
  constructor <;>
    norm_num [TriangleSAHPred.eval, TriangleSAHPred.Set, centroidPred, sahP,
      sahVerts, s1faces, tri3n, vec3]

/-- Counterexample for C3: `commit` on a scene with no geometry and an
invalid `bin_size = 0` succeeds, and a second `commit` succeeds again. -/
theorem blazert_C3_counterexample :
    (BlazertScene.commit emptyScene).1 = true
      ∧ (BlazertScene.commit (BlazertScene.commit emptyScene).2).1 = true := by
  constructor <;> norm_num [BlazertScene.commit, emptyScene]

/-- C3 (amended): `commit` performs no validation and always returns
`true`, setting `has_been_committed`; a repeated call is not rejected and
re-runs the per-class BVH builds. -/
theorem blazert_C3_amended (s : BlazertScene) :
    (BlazertScene.commit s).1 = true
    ∧ (BlazertScene.commit s).2.has_been_committed = true
    ∧ (BlazertScene.commit s).2.builds
        = s.builds + (if s.has_triangles then 1 else 0)
          + (if s.has_spheres then 1 else 0) := by
  refine ⟨rfl, rfl, ?_⟩
  simp only [BlazertScene.commit]
  split_ifs <;> simp

/-- Counterexample for C8: a buffer with a stale first bin (count 5) is
fully reset by `clear()` — every one of the `3·size` entries afterwards is
the default-constructed bin, so no entry retains its previous contents. -/
theorem blazert_C8_counterexample :
    bufC8.bin.headI.count = 5
      ∧ (BinBuffer.clear bufC8).bin = List.replicate 3 defaultBin := by
  constructor
  · rfl
  · norm_num [BinBuffer.clear, bufC8, vecClear, vecResize, List.replicate]

/-- C8 (amended): `BinBuffer::clear` erases the vector and resizes it, so
after `clear()` all `3·size` entries hold the default-constructed state
(`count = 0`, `min = +max_T`, `max = -max_T`, `cost = 0`). -/
theorem blazert_C8_amended (b : BinBuffer) :
    (BinBuffer.clear b).bin = List.replicate (3 * b.size) defaultBin := by
  simp [BinBuffer.clear, vecClear, vecResize]

/-! Concrete closest-hit evaluations of the class models. -/

theorem classBest_demoTri : classBest demoTri = some (1, 0) := by
  norm_num [classBest, demoTri, List.range_succ]

theorem classBest_tieSph : classBest tieSph = some (1, 0) := by
  norm_num [classBest, tieSph, List.range_succ]

theorem classBest_demoSph : classBest demoSph = some (2, 0) := by
  norm_num [classBest, demoSph, List.range_succ]

theorem scene_tie_triangle (s : SceneModel) (rh0 : RayHit) (t : ℚ) (i i' : ℕ)
    (hts : s.has_triangles = true) (hss : s.has_spheres = true)
    (hct : classBest s.triangles = some (t, i))
    (hcs : classBest s.spheres = some (t, i')) :
    (intersect1 s rh0).2 = ⟨t, i, s.triangles.tag⟩ := by
  simp [intersect1, traverse, hts, hss, hct, hcs]

theorem leaf_equal_replaces (I : TriangleIntersector) (st : TriState) (p q : ℕ)
    (t u v u' v' : ℚ)
    (h1 : I.Intersect st.t p = some (t, u, v))
    (h2 : I.Intersect t q = some (t, u', v')) :
    (intersect_leaf I false [p, q] false st).1 = true
    ∧ (intersect_leaf I false [p, q] false st).2 = ⟨t, (u', v'), q⟩ := by
  simp [intersect_leaf, intersect_primitive, h1, h2]

/-- Counterexample for C4: primitives 0 and 1 (identical triangles) both
hit the S1 ray at exactly `t = 1`, yet the leaf loop reports primitive 1 —
the one tried later — not the smaller `prim_id` 0, because the intersector
accepts `tt == *t_inout` and overwrites the incumbent. -/
theorem blazert_C4_counterexample :
    s1I.Intersect (10 : ℚ) 0 = some (1, 1/4, 1/4)
    ∧ s1I.Intersect (1 : ℚ) 1 = some (1, 1/4, 1/4)
    ∧ (intersect_leaf s1I false [0, 1] false c4st).2.prim_id = 1
    ∧ (intersect_leaf s1I false [0, 1] false c4st).2.prim_id ≠ 0 :=
  ⟨s1I_hit, s1I_hit_second, by rw [c4_leaf_eval], by rw [c4_leaf_eval]; norm_num⟩

/-- C4 (amended): equal-distance class ties resolve to the class tried
first (triangles), since the sphere result replaces the current hit only on
strictly smaller distance; but within one class a primitive whose hit
distance exactly equals the current best replaces it, so the primitive
tried last in traversal order (the larger `prim_id` when a leaf is visited
in increasing index order) provides the hit. -/
theorem blazert_C4_amended :
    (∀ (s : SceneModel) (rh0 : RayHit) (t : ℚ) (i i' : ℕ),
        s.has_triangles = true → s.has_spheres = true →
        classBest s.triangles = some (t, i) → classBest s.spheres = some (t, i') →
        (intersect1 s rh0).2 = ⟨t, i, s.triangles.tag⟩)
    ∧ (∀ (I : TriangleIntersector) (st : TriState) (p q : ℕ) (t u v u' v' : ℚ),
        I.Intersect st.t p = some (t, u, v) →
        I.Intersect t q = some (t, u', v') →
        (intersect_leaf I false [p, q] false st).1 = true
        ∧ (intersect_leaf I false [p, q] false st).2 = ⟨t, (u', v'), q⟩) :=
  ⟨scene_tie_triangle, leaf_equal_replaces⟩

/-- Witness for C4 (amended): the tie scene keeps the triangle class's hit,
and the two equal-distance triangles of the S1 mesh resolve to the later
primitive 1. -/
theorem blazert_C4_witness :
    (intersect1 tieScene defaultRayHit).2 = ⟨1, 0, tieScene.triangles.tag⟩
    ∧ (intersect_leaf s1I false [0, 1] false c4st).1 = true
    ∧ (intersect_leaf s1I false [0, 1] false c4st).2 = ⟨1, (1/4, 1/4), 1⟩ :=
  ⟨blazert_C4_amended.1 tieScene defaultRayHit 1 0 0 rfl rfl
      classBest_demoTri classBest_tieSph,
   (blazert_C4_amended.2 s1I c4st 0 1 1 (1/4) (1/4) (1/4) (1/4)
      s1I_hit s1I_hit_second).1,
   (blazert_C4_amended.2 s1I c4st 0 1 1 (1/4) (1/4) (1/4) (1/4)
      s1I_hit s1I_hit_second).2⟩

/-- Characterization of the per-class closest hit: `none` iff no primitive
hits, and a `some (t, i)` names a hitting primitive of minimal parameter. -/
theorem classBest_spec (m : ClassModel) :
    (classBest m = none → ∀ i < m.n, m.primT i = none)
    ∧ (∀ t i, classBest m = some (t, i) →
        i < m.n ∧ m.primT i = some t
          ∧ ∀ k < m.n, ∀ u, m.primT k = some u → t ≤ u) := by
  obtain ⟨tag, n, f⟩ := m
  simp only [classBest]
  induction n with
  | zero =>
    exact ⟨fun _ i hi => absurd hi (Nat.not_lt_zero i),
           fun t i h => Option.noConfusion h⟩
  | succ n ih =>
    rw [List.range_succ, List.foldl_append, List.foldl_cons, List.foldl_nil]
    set B := (List.range n).foldl
      (fun best i =>
        match f i, best with
        | some t, some tb => if t < tb.1 then some (t, i) else some tb
        | some t, none => some (t, i)
        | none, b => b) none with hBdef
    cases hB : B with
    | none =>
      have hall := ih.1 hB
      cases hf : f n with
      | none =>
        refine ⟨fun _ i hi => ?_, fun t i h => ?_⟩
        · rcases Nat.lt_succ_iff_lt_or_eq.mp hi with hi | rfl
          · exact hall i hi
          · exact hf
        · simp only [hf, hB] at h
          exact Option.noConfusion h
      | some t0 =>
        refine ⟨fun h => ?_, fun t i h => ?_⟩
        · simp only [hf, hB] at h
          exact Option.noConfusion h
        · simp only [hf, hB, Option.some_inj] at h
          obtain ⟨rfl, rfl⟩ := Prod.mk.injEq .. ▸ h
          refine ⟨Nat.lt_succ_self n, hf, fun k hk u hu => ?_⟩
          rcases Nat.lt_succ_iff_lt_or_eq.mp hk with hk | rfl
          · rw [hall k hk] at hu; exact Option.noConfusion hu
          · rw [hf] at hu; injection hu with hu; exact le_of_eq hu
    | some tb =>
      obtain ⟨tbt, tbi⟩ := tb
      obtain ⟨hbi, hbf, hbmin⟩ := ih.2 tbt tbi hB
      cases hf : f n with
      | none =>
        refine ⟨fun h => ?_, fun t i h => ?_⟩
        · simp only [hf, hB] at h
          exact Option.noConfusion h
        · simp only [hf, hB, Option.some_inj] at h
          obtain ⟨rfl, rfl⟩ := Prod.mk.injEq .. ▸ h
          refine ⟨Nat.lt_succ_of_lt hbi, hbf, fun k hk u hu => ?_⟩
          rcases Nat.lt_succ_iff_lt_or_eq.mp hk with hk | rfl
          · exact hbmin k hk u hu
          · rw [hf] at hu; exact Option.noConfusion hu
      | some t0 =>
        by_cases hlt : t0 < tbt
        · refine ⟨fun h => ?_, fun t i h => ?_⟩
          · simp only [hf, hB, if_pos hlt] at h
            exact Option.noConfusion h
          · simp only [hf, hB, if_pos hlt, Option.some_inj] at h
            obtain ⟨rfl, rfl⟩ := Prod.mk.injEq .. ▸ h
            refine ⟨Nat.lt_succ_self n, hf, fun k hk u hu => ?_⟩
            rcases Nat.lt_succ_iff_lt_or_eq.mp hk with hk | rfl
            · exact le_of_lt (lt_of_lt_of_le hlt (hbmin k hk u hu))
            · rw [hf] at hu; injection hu with hu; exact le_of_eq hu
        · refine ⟨fun h => ?_, fun t i h => ?_⟩
          · simp only [hf, hB, if_neg hlt] at h
            exact Option.noConfusion h
          · simp only [hf, hB, if_neg hlt, Option.some_inj] at h
            obtain ⟨rfl, rfl⟩ := Prod.mk.injEq .. ▸ h
            refine ⟨Nat.lt_succ_of_lt hbi, hbf, fun k hk u hu => ?_⟩
            rcases Nat.lt_succ_iff_lt_or_eq.mp hk with hk | rfl
            · exact hbmin k hk u hu
            · rw [hf] at hu; injection hu with hu
              exact le_of_not_lt hlt |>.trans (le_of_eq hu)



/-- Computed form of `intersect1`: the triangle result is copied
unconditionally, the sphere result only under strict comparison against the
current `rayhit.hit_distance`. -/
theorem intersect1_eq (s : SceneModel) (rh0 : RayHit) :
    intersect1 s rh0 =
      match (if s.has_triangles then classBest s.triangles else none),
            (if s.has_spheres then classBest s.spheres else none) with
      | none, none => (false, rh0)
      | some ti, none => (true, ⟨ti.1, ti.2, s.triangles.tag⟩)
      | none, some si =>
          if si.1 < rh0.hit_distance then (true, ⟨si.1, si.2, s.spheres.tag⟩)
          else (false, rh0)
      | some ti, some si =>
          if si.1 < ti.1 then (true, ⟨si.1, si.2, s.spheres.tag⟩)
          else (true, ⟨ti.1, ti.2, s.triangles.tag⟩) := by
  cases hts : s.has_triangles <;> cases hss : s.has_spheres <;>
    rcases hct : classBest s.triangles with _ | ⟨tit, tii⟩ <;>
    rcases hcs : classBest s.spheres with _ | ⟨sit, sii⟩ <;>
    simp [intersect1, traverse, hts, hss, hct, hcs] <;> (try (split <;> rfl))



/-- C1: for a committed scene queried with a fresh `RayHit` (distance
sentinel `max_T`) and sphere hits below the sentinel, `intersect1` returns
`true` iff some registered primitive intersects the ray within
`[min_t, max_t]`, and then the written hit distance is exactly the minimum
intersection parameter over all primitives of both classes (exact
arithmetic, so within the claimed `4·ε·max_t` tolerance). -/
theorem blazert_C1 (s : SceneModel) (rh0 : RayHit)
    (h0 : rh0.hit_distance = Tmax)
    (hsph : ∀ i t, s.spheres.primT i = some t → t < Tmax) :
    ((intersect1 s rh0).1 = true ↔ ∃ t, sceneHits s t)
    ∧ ((intersect1 s rh0).1 = true →
        sceneHits s ((intersect1 s rh0).2.hit_distance)
        ∧ ∀ t, sceneHits s t → (intersect1 s rh0).2.hit_distance ≤ t) := by
  obtain ⟨tnone, tsome⟩ := classBest_spec s.triangles
  obtain ⟨snone, ssome⟩ := classBest_spec s.spheres
  rw [intersect1_eq]
  cases hts : s.has_triangles <;> cases hss : s.has_spheres
  · -- no classes registered
    constructor
    · simp [sceneHits, hts, hss]
    · simp [hts, hss]
  · -- spheres only
    rcases hcs : classBest s.spheres with _ | ⟨sit, sii⟩
    · constructor
      · constructor
        · simp [hts, hss, hcs]
        · rintro ⟨t, ⟨hf, -⟩ | ⟨-, i, hi, hpi⟩⟩
          · rw [hts] at hf; exact Bool.noConfusion hf
          · rw [snone hcs i hi] at hpi; exact Option.noConfusion hpi
      · simp [hts, hss, hcs]
    · obtain ⟨hin, hpt, hmin⟩ := ssome sit sii hcs
      have hslt : sit < rh0.hit_distance := h0 ▸ hsph sii sit hpt
      simp only [hts, hss, hcs, Bool.false_eq_true, if_true, if_false]
      rw [if_pos hslt]
      refine ⟨⟨fun _ => ⟨sit, Or.inr ⟨hss, sii, hin, hpt⟩⟩, fun _ => by trivial⟩, fun _ => ?_⟩
      refine ⟨Or.inr ⟨hss, sii, hin, hpt⟩, ?_⟩
      rintro t (⟨hf, -⟩ | ⟨-, i, hi, hpi⟩)
      · rw [hts] at hf; exact Bool.noConfusion hf
      · exact hmin i hi t hpi
  · -- triangles only
    rcases hct : classBest s.triangles with _ | ⟨tit, tii⟩
    · constructor
      · constructor
        · simp [hts, hss, hct]
        · rintro ⟨t, ⟨-, i, hi, hpi⟩ | ⟨hf, -⟩⟩
          · rw [tnone hct i hi] at hpi; exact Option.noConfusion hpi
          · rw [hss] at hf; exact Bool.noConfusion hf
      · simp [hts, hss, hct]
    · obtain ⟨hin, hpt, hmin⟩ := tsome tit tii hct
      simp only [hts, hss, hct, Bool.false_eq_true, if_true, if_false]
      refine ⟨⟨fun _ => ⟨tit, Or.inl ⟨hts, tii, hin, hpt⟩⟩, fun _ => by trivial⟩, fun _ => ?_⟩
      refine ⟨Or.inl ⟨hts, tii, hin, hpt⟩, ?_⟩
      rintro t (⟨-, i, hi, hpi⟩ | ⟨hf, -⟩)
      · exact hmin i hi t hpi
      · rw [hss] at hf; exact Bool.noConfusion hf
  · -- both classes
    rcases hct : classBest s.triangles with _ | ⟨tit, tii⟩ <;>
      rcases hcs : classBest s.spheres with _ | ⟨sit, sii⟩
    · constructor
      · constructor
        · simp [hts, hss, hct, hcs]
        · rintro ⟨t, ⟨-, i, hi, hpi⟩ | ⟨-, i, hi, hpi⟩⟩
          · rw [tnone hct i hi] at hpi; exact Option.noConfusion hpi
          · rw [snone hcs i hi] at hpi; exact Option.noConfusion hpi
      · simp [hts, hss, hct, hcs]
    · obtain ⟨hin, hpt, hmin⟩ := ssome sit sii hcs
      have hslt : sit < rh0.hit_distance := h0 ▸ hsph sii sit hpt
      simp only [hts, hss, hct, hcs, if_true]
      rw [if_pos hslt]
      refine ⟨⟨fun _ => ⟨sit, Or.inr ⟨hss, sii, hin, hpt⟩⟩, fun _ => by trivial⟩, fun _ => ?_⟩
      refine ⟨Or.inr ⟨hss, sii, hin, hpt⟩, ?_⟩
      rintro t (⟨-, i, hi, hpi⟩ | ⟨-, i, hi, hpi⟩)
      · rw [tnone hct i hi] at hpi; exact Option.noConfusion hpi
      · exact hmin i hi t hpi
    · obtain ⟨hin, hpt, hmin⟩ := tsome tit tii hct
      simp only [hts, hss, hct, hcs, if_true]
      refine ⟨⟨fun _ => ⟨tit, Or.inl ⟨hts, tii, hin, hpt⟩⟩, fun _ => by trivial⟩, fun _ => ?_⟩
      refine ⟨Or.inl ⟨hts, tii, hin, hpt⟩, ?_⟩
      rintro t (⟨-, i, hi, hpi⟩ | ⟨-, i, hi, hpi⟩)
      · exact hmin i hi t hpi
      · rw [snone hcs i hi] at hpi; exact Option.noConfusion hpi
    · obtain ⟨tin, tpt, tmin⟩ := tsome tit tii hct
      obtain ⟨sin, spt, smin⟩ := ssome sit sii hcs
      simp only [hts, hss, hct, hcs, if_true]
      by_cases hlt : sit < tit
      · rw [if_pos hlt]
        refine ⟨⟨fun _ => ⟨sit, Or.inr ⟨hss, sii, sin, spt⟩⟩, fun _ => by trivial⟩, fun _ => ?_⟩
        refine ⟨Or.inr ⟨hss, sii, sin, spt⟩, ?_⟩
        rintro t (⟨-, i, hi, hpi⟩ | ⟨-, i, hi, hpi⟩)
        · exact le_of_lt (lt_of_lt_of_le hlt (tmin i hi t hpi))
        · exact smin i hi t hpi
      · rw [if_neg hlt]
        refine ⟨⟨fun _ => ⟨tit, Or.inl ⟨hts, tii, tin, tpt⟩⟩, fun _ => by trivial⟩, fun _ => ?_⟩
        refine ⟨Or.inl ⟨hts, tii, tin, tpt⟩, ?_⟩
        rintro t (⟨-, i, hi, hpi⟩ | ⟨-, i, hi, hpi⟩)
        · exact tmin i hi t hpi
        · exact (le_of_not_lt hlt).trans (smin i hi t hpi)



/-- Witness for C1: the demo scene (triangle at `t = 1`, sphere at
`t = 2`) reports a hit. -/
theorem blazert_C1_witness : (intersect1 demoScene defaultRayHit).1 = true :=
  (blazert_C1 demoScene defaultRayHit rfl
    (by
      intro i t h
      simp only [demoScene, demoSph] at h
      by_cases hi : i = 0
      · rw [if_pos hi] at h; injection h with h; rw [← h]; norm_num [Tmax]
      · rw [if_neg hi] at h; exact Option.noConfusion h)).1.mpr
    ⟨1, Or.inl ⟨rfl, 0, by norm_num [demoScene, demoTri], rfl⟩⟩

set_option maxRecDepth 4000 in
/-- Invariant of the left-to-right sweep: after `m` iterations the state
holds the prefix count and box of bins `[0, m)` and the running minimum of
the selectable split costs `1..m` with its first attaining position. -/
theorem sweepLeft_fold (size j : ℕ) (bins : ℕ → Bin) (m : ℕ) :
    (List.range m).foldl (sweepLeftStep size j bins)
      (MinSweepState.mk 0 (fun _ => Tmax) (fun _ => -Tmax) 1 Tmax)
    = MinSweepState.mk (prefCount size j bins m) (prefMin size j bins m)
        (prefMax size j bins m)
        (runMinAux (splitCost size j bins) m).1
        (runMinAux (splitCost size j bins) m).2 := by
  induction m with
  | zero => rfl
  | succ m ih =>
    rw [List.range_succ, List.foldl_append, List.foldl_cons, List.foldl_nil, ih]
    unfold sweepLeftStep
    simp only []
    simp only [runMinAux]
    simp only [splitCost, prefCount, prefMin, prefMax, Nat.add_assoc]
    split
    · split_ifs <;> rfl
    · rfl

/-- The running strict minimum computes the minimum over candidates
`1..m` and the least index attaining it, provided every candidate is a
real (non-NaN, non-overflowed) cost below the `max_T` start value. -/
theorem runMinAux_spec (f : ℕ → Option ℚ) (m : ℕ) (hm : 1 ≤ m)
    (hf : ∀ s, 1 ≤ s → s ≤ m → ∃ c, f s = some c ∧ c < Tmax) :
    (1 ≤ (runMinAux f m).1 ∧ (runMinAux f m).1 ≤ m)
    ∧ f (runMinAux f m).1 = some (runMinAux f m).2
    ∧ (∀ s, 1 ≤ s → s ≤ m → ∀ c, f s = some c → (runMinAux f m).2 ≤ c)
    ∧ (∀ s, 1 ≤ s → s < (runMinAux f m).1 → ∀ c, f s = some c → (runMinAux f m).2 < c) := by
  induction m with
  | zero => omega
  | succ m ih =>
    cases Nat.eq_zero_or_pos m with
    | inl h0 =>
      subst h0
      obtain ⟨c1, hc1, hlt1⟩ := hf 1 le_rfl le_rfl
      have hr : runMinAux f 1 = (1, c1) := by simp [runMinAux, hc1, hlt1]
      rw [hr]
      refine ⟨⟨le_rfl, le_rfl⟩, hc1, fun s hs1 hs2 c hc => ?_,
        fun s hs1 hs2 => absurd hs1 (by omega)⟩
      have hs : s = 1 := by omega
      subst hs
      rw [hc1] at hc
      injection hc with hc
      exact le_of_eq hc
    | inr hpos =>
      obtain ⟨⟨hr1, hr2⟩, hattain, hmin, hleast⟩ :=
        ih hpos (fun s h1 h2 => hf s h1 (Nat.le_succ_of_le h2))
      obtain ⟨cn, hcn, hcnlt⟩ := hf (m + 1) (by omega) le_rfl
      simp only [runMinAux, hcn]
      by_cases hlt : cn < (runMinAux f m).2
      · rw [if_pos hlt]
        refine ⟨⟨by omega, le_rfl⟩, hcn, fun s hs1 hs2 c hc => ?_,
          fun s hs1 hs2 c hc => ?_⟩
        · rcases Nat.lt_succ_iff_lt_or_eq.mp (Nat.lt_succ_of_le hs2) with hs | rfl
          · exact le_of_lt (lt_of_lt_of_le hlt (hmin s hs1 (by omega) c hc))
          · rw [hcn] at hc; injection hc with hc; exact le_of_eq hc
        · exact lt_of_lt_of_le hlt (hmin s hs1 (by omega) c hc)
      · rw [if_neg hlt]
        refine ⟨⟨hr1, Nat.le_succ_of_le hr2⟩, hattain, fun s hs1 hs2 c hc => ?_,
          fun s hs1 hs2 c hc => hleast s hs1 hs2 c hc⟩
        rcases Nat.lt_succ_iff_lt_or_eq.mp (Nat.lt_succ_of_le hs2) with hs | rfl
        · exact hmin s hs1 (by omega) c hc
        · rw [hcn] at hc; injection hc with hc; rw [← hc]; exact le_of_not_lt hlt

/-- An axis all of whose candidate costs are NaN / `+∞` (`none`) — e.g. a
degenerate axis whose bins were never filled, or one with an empty prefix
or suffix at every split — keeps the initial `(minBin, min_cost) = (1,
max_T)`: the float comparison against NaN is false at every step, so such
an axis is never preferred over one with a real cost below `max_T`. -/
theorem runMinAux_none_skip (f : ℕ → Option ℚ) (m : ℕ)
    (h : ∀ s, 1 ≤ s → s ≤ m → f s = none) : runMinAux f m = (1, Tmax) := by
  induction m with
  | zero => rfl
  | succ m ih =>
    simp only [runMinAux, h (m + 1) (by omega) le_rfl,
      ih (fun s h1 h2 => h s h1 (by omega))]

/-- The source's two-comparison axis selection picks the least index
attaining the minimal per-axis cost. -/
theorem argmin3_least (mc : ℕ → ℚ) (a0 ax : ℕ)
    (h0 : a0 = if mc 1 < mc 0 then 1 else 0)
    (h1 : ax = if mc 2 < mc a0 then 2 else a0) :
    ax < 3 ∧ (∀ j < 3, mc ax ≤ mc j) ∧ (∀ j < 3, mc j = mc ax → ax ≤ j) := by
  subst h0
  subst h1
  rcases lt_or_le (mc 1) (mc 0) with hA | hA
  · rw [if_pos hA]
    rcases lt_or_le (mc 2) (mc 1) with hB | hB
    · rw [if_pos hB]
      refine ⟨by omega, fun j hj => ?_, fun j hj heq => ?_⟩
      · interval_cases j <;> linarith
      · interval_cases j <;> first | exact le_rfl | (exfalso; linarith)
    · rw [if_neg (not_lt.mpr hB)]
      refine ⟨by omega, fun j hj => ?_, fun j hj heq => ?_⟩
      · interval_cases j <;> linarith
      · interval_cases j <;> first | omega | (exfalso; linarith)
  · rw [if_neg (not_lt.mpr hA)]
    rcases lt_or_le (mc 2) (mc 0) with hB | hB
    · rw [if_pos hB]
      refine ⟨by omega, fun j hj => ?_, fun j hj heq => ?_⟩
      · interval_cases j <;> linarith
      · interval_cases j <;> first | exact le_rfl | (exfalso; linarith)
    · rw [if_neg (not_lt.mpr hB)]
      refine ⟨by omega, fun j hj => ?_, fun j hj heq => ?_⟩
      · interval_cases j <;> linarith
      · interval_cases j <;> omega



/-- C7: `find_best_split_binned` returns, for each axis `j`, a cut
position `min[j] + minBin·(max[j]-min[j])/bin_size` with
`minBin ∈ [1, bin_size-1]` minimising left-count·SA(left box) plus the
precomputed right-of-split cost, and the axis of minimal per-axis minimal
cost, ties to the lowest index — under the hypothesis that every candidate
cost is a real float value (not the NaN / `+∞` of empty bin ranges, which
the sweep never selects) below the `max_T` start value. -/
theorem blazert_C7 (c : SplitCollection) (prims : List ℕ) (bmin bmax : Vec3)
    (bin_size : ℕ) (h2 : 2 ≤ bin_size)
    (hc : ∀ j, j < 3 → ∀ s, 1 ≤ s → s ≤ bin_size - 1 →
        ∃ cost, splitCost bin_size j (rightSweptBins c prims bmin bmax bin_size j) s
            = some cost ∧ cost < Tmax) :
    ∃ minBin : ℕ → ℕ,
      (∀ j : Fin 3,
          (1 ≤ minBin j.val ∧ minBin j.val ≤ bin_size - 1)
          ∧ (find_best_split_binned c prims bmin bmax bin_size).2 j
              = bmin j + (minBin j.val : ℚ) * ((bmax j - bmin j) / (bin_size : ℚ))
          ∧ ∀ s, 1 ≤ s → s ≤ bin_size - 1 → ∀ cM cS,
              splitCost bin_size j.val
                  (rightSweptBins c prims bmin bmax bin_size j.val) (minBin j.val)
                  = some cM →
              splitCost bin_size j.val
                  (rightSweptBins c prims bmin bmax bin_size j.val) s = some cS →
              cM ≤ cS)
      ∧ (find_best_split_binned c prims bmin bmax bin_size).1 < 3
      ∧ (∀ j, j < 3 → ∀ cA cJ,
          splitCost bin_size (find_best_split_binned c prims bmin bmax bin_size).1
              (rightSweptBins c prims bmin bmax bin_size
                (find_best_split_binned c prims bmin bmax bin_size).1)
              (minBin (find_best_split_binned c prims bmin bmax bin_size).1)
              = some cA →
          splitCost bin_size j
              (rightSweptBins c prims bmin bmax bin_size j) (minBin j) = some cJ →
          cA ≤ cJ)
      ∧ (∀ j, j < 3 → ∀ cA cJ,
          splitCost bin_size (find_best_split_binned c prims bmin bmax bin_size).1
              (rightSweptBins c prims bmin bmax bin_size
                (find_best_split_binned c prims bmin bmax bin_size).1)
              (minBin (find_best_split_binned c prims bmin bmax bin_size).1)
              = some cA →
          splitCost bin_size j
              (rightSweptBins c prims bmin bmax bin_size j) (minBin j) = some cJ →
          cJ = cA → (find_best_split_binned c prims bmin bmax bin_size).1 ≤ j) := by
  have hm1 : 1 ≤ bin_size - 1 := by omega
  set F : ℕ → ℕ → Option ℚ :=
    fun j => splitCost bin_size j (rightSweptBins c prims bmin bmax bin_size j) with hF
  set R : ℕ → ℕ × ℚ := fun j => runMinAux (F j) (bin_size - 1) with hR
  have hspec : ∀ j, j < 3 →
      (1 ≤ (R j).1 ∧ (R j).1 ≤ bin_size - 1)
      ∧ F j (R j).1 = some (R j).2
      ∧ (∀ s, 1 ≤ s → s ≤ bin_size - 1 → ∀ c, F j s = some c → (R j).2 ≤ c)
      ∧ (∀ s, 1 ≤ s → s < (R j).1 → ∀ c, F j s = some c → (R j).2 < c) := by
    intro j hj
    exact runMinAux_spec (F j) (bin_size - 1) hm1 (fun s u1 u2 => hc j hj s u1 u2)
  have hfold : ∀ j : ℕ,
      sweepLeft bin_size j (rightSweptBins c prims bmin bmax bin_size j)
        = MinSweepState.mk
            (prefCount bin_size j (rightSweptBins c prims bmin bmax bin_size j) (bin_size - 1))
            (prefMin bin_size j (rightSweptBins c prims bmin bmax bin_size j) (bin_size - 1))
            (prefMax bin_size j (rightSweptBins c prims bmin bmax bin_size j) (bin_size - 1))
            (R j).1 (R j).2 :=
    fun j => sweepLeft_fold bin_size j (rightSweptBins c prims bmin bmax bin_size j) (bin_size - 1)
  have hcut : ∀ j : Fin 3, (find_best_split_binned c prims bmin bmax bin_size).2 j
      = ((R j.val).1 : ℚ) * ((bmax j - bmin j) / (bin_size : ℚ)) + bmin j := by
    intro j
    simp only [find_best_split_binned, hfold]
  have hax : (find_best_split_binned c prims bmin bmax bin_size).1
      = if (R 2).2 < (R (if (R 1).2 < (R 0).2 then 1 else 0)).2 then 2
        else (if (R 1).2 < (R 0).2 then 1 else 0) := by
    simp only [find_best_split_binned, hfold]
  obtain ⟨hax3, haxmin, haxleast⟩ :=
    argmin3_least (fun j => (R j).2) (if (R 1).2 < (R 0).2 then 1 else 0)
      (find_best_split_binned c prims bmin bmax bin_size).1 rfl hax
  refine ⟨fun j => (R j).1, fun j => ?_, hax3, fun j hj cA cJ hA hJ => ?_,
    fun j hj cA cJ hA hJ hEq => ?_⟩
  · obtain ⟨⟨hb1, hb2⟩, hatt, hmin, hleast⟩ := hspec j.val j.isLt
    refine ⟨⟨hb1, hb2⟩, ?_, fun s u1 u2 cM cS hM hS => ?_⟩
    · rw [hcut j]; ring
    · have hM' : F j.val (R j.val).1 = some cM := hM
      have hS' : F j.val s = some cS := hS
      rw [hatt] at hM'
      injection hM' with hM'
      rw [← hM']
      exact hmin s u1 u2 cS hS'
  · obtain ⟨-, hattA, -, -⟩ :=
      hspec (find_best_split_binned c prims bmin bmax bin_size).1 hax3
    obtain ⟨-, hattJ, -, -⟩ := hspec j hj
    have hA' : F (find_best_split_binned c prims bmin bmax bin_size).1
        (R (find_best_split_binned c prims bmin bmax bin_size).1).1 = some cA := hA
    have hJ' : F j (R j).1 = some cJ := hJ
    rw [hattA] at hA'
    rw [hattJ] at hJ'
    injection hA' with hA'
    injection hJ' with hJ'
    rw [← hA', ← hJ']
    exact haxmin j hj
  · obtain ⟨-, hattA, -, -⟩ :=
      hspec (find_best_split_binned c prims bmin bmax bin_size).1 hax3
    obtain ⟨-, hattJ, -, -⟩ := hspec j hj
    have hA' : F (find_best_split_binned c prims bmin bmax bin_size).1
        (R (find_best_split_binned c prims bmin bmax bin_size).1).1 = some cA := hA
    have hJ' : F j (R j).1 = some cJ := hJ
    rw [hattA] at hA'
    rw [hattJ] at hJ'
    injection hA' with hA'
    injection hJ' with hJ'
    refine haxleast j hj ?_
    show (R j).2 = (R (find_best_split_binned c prims bmin bmax bin_size).1).2
    rw [hJ', hA']
    exact hEq

set_option maxHeartbeats 4000000 in
/-- Witness for C7: two point primitives at the corners of `[0,1]³` with
`bin_size = 2` (every candidate cost is the real value 0, below the
sentinel). -/
theorem blazert_C7_witness :
    ∃ minBin : ℕ → ℕ,
      (∀ j : Fin 3,
          (1 ≤ minBin j.val ∧ minBin j.val ≤ 2 - 1)
          ∧ (find_best_split_binned wCol [0, 1] wMin wMax 2).2 j
              = wMin j + (minBin j.val : ℚ) * ((wMax j - wMin j) / (2 : ℚ))
          ∧ ∀ s, 1 ≤ s → s ≤ 2 - 1 → ∀ cM cS,
              splitCost 2 j.val (rightSweptBins wCol [0, 1] wMin wMax 2 j.val)
                  (minBin j.val) = some cM →
              splitCost 2 j.val (rightSweptBins wCol [0, 1] wMin wMax 2 j.val) s
                  = some cS →
              cM ≤ cS)
      ∧ (find_best_split_binned wCol [0, 1] wMin wMax 2).1 < 3
      ∧ (∀ j, j < 3 → ∀ cA cJ,
          splitCost 2 (find_best_split_binned wCol [0, 1] wMin wMax 2).1
              (rightSweptBins wCol [0, 1] wMin wMax 2
                (find_best_split_binned wCol [0, 1] wMin wMax 2).1)
              (minBin (find_best_split_binned wCol [0, 1] wMin wMax 2).1)
              = some cA →
          splitCost 2 j (rightSweptBins wCol [0, 1] wMin wMax 2 j) (minBin j)
              = some cJ →
          cA ≤ cJ)
      ∧ (∀ j, j < 3 → ∀ cA cJ,
          splitCost 2 (find_best_split_binned wCol [0, 1] wMin wMax 2).1
              (rightSweptBins wCol [0, 1] wMin wMax 2
                (find_best_split_binned wCol [0, 1] wMin wMax 2).1)
              (minBin (find_best_split_binned wCol [0, 1] wMin wMax 2).1)
              = some cA →
          splitCost 2 j (rightSweptBins wCol [0, 1] wMin wMax 2 j) (minBin j)
              = some cJ →
          cJ = cA → (find_best_split_binned wCol [0, 1] wMin wMax 2).1 ≤ j) :=
  blazert_C7 wCol [0, 1] wMin wMax 2 (by norm_num)
    (by
      intro j hj s h1 h2
      interval_cases s
      refine ⟨0, ?_, by norm_num [Tmax]⟩
      interval_cases j <;>
        norm_num [splitCost, saCost, addCost, prefCount, prefMin, prefMax, sweepRight,
          rightSweptBins, sort_collection_into_bins, updAt, calculate_box_surface,
          defaultBin, wCol, wMin, wMax, vec3, Tmax, List.range_succ, Nat.min_def])

end Blazert
